import Mathlib

/-!
Verification of the multi-view projection aggregation engine of the
multiview-prediction-toolkit / geograypher repository.

The development shallowly embeds the accumulation, chunking, rasterization
adaptation and consensus-extraction code of

* multiview_prediction_toolkit/meshes/meshes.py
  (TexturedPhotogrammetryMesh.aggregate_viewpoints_pytorch3d,
   TexturedPhotogrammetryMesh.vert_to_face_IDs),
* geograypher/meshes/derived_meshes.py
  (TexturedPhotogrammetryMeshChunked.get_mesh_chunks_for_cameras,
   TexturedPhotogrammetryMeshChunked.aggregate_projected_images,
   TexturedPhotogrammetryMeshIndexPredictions.aggregate_projected_images,
   TexturedPhotogrammetryMeshPyTorch3dRendering.pix2face,
   TexturedPhotogrammetryMeshPyTorch3dRendering.transform_into_pytorch3d_camera_set),
* geograypher/entrypoints/aggregate_images.py (consensus extraction).

NumPy / SciPy machine arithmetic is modelled explicitly: unsigned integer
accumulators reduce modulo their width (uint16, uint32), IEEE special values
are represented by an explicit value type with NaN and infinities, negative
NumPy indices wrap from the end of the axis, and np.reciprocal on an integer
dtype performs C integer division.  Rasterization itself (pytorch3d) is
treated as a primitive: an image is its array of (pix-to-face, color) pixels.
-/

/-- An IEEE-style scalar as produced by the NumPy float operations used in the
normalization code: NaN, the two infinities, or a finite value (modelled as a
rational; the claims under study are about exact values, NaN placement and
division by zero, not about rounding). -/
inductive FVal where
  | nan : FVal
  | inf : FVal
  | ninf : FVal
  | val : ℚ → FVal
deriving DecidableEq

/-- NumPy elementwise division of a float value by a (cast) nonnegative integer
count, with IEEE semantics: NaN propagates, 0/0 is NaN, x/0 for finite
nonzero x is a signed infinity. -/
def fdivF (x : FVal) (n : ℕ) : FVal :=
  match x with
  | FVal.nan => FVal.nan
  | FVal.inf => FVal.inf
  | FVal.ninf => FVal.ninf
  | FVal.val q =>
      if n = 0 then
        if q = 0 then FVal.nan else if 0 < q then FVal.inf else FVal.ninf
      else FVal.val (q / n)

/-- NumPy integer indexing into an axis of length F: a nonnegative index is
used as-is, a negative index i addresses element F + i (so -1 is the LAST
element).  Out-of-range indices raise IndexError in NumPy; they never occur in
the embedded runs, and are mapped to 0 here. -/
def npIndex (F : ℕ) (hF : 0 < F) (i : ℤ) : Fin F :=
  if h : 0 ≤ i ∧ i < (F : ℤ) then
    ⟨i.toNat, by omega⟩
  else if h2 : -(F : ℤ) ≤ i ∧ i < 0 then
    ⟨(i + F).toNat, by omega⟩
  else ⟨0, hF⟩

/-! ## Dense occlusion-aware aggregation
    TexturedPhotogrammetryMesh.aggregate_viewpoints_pytorch3d
    (multiview_prediction_toolkit/meshes/meshes.py, lines 413-480). -/

/-- One rasterized pixel of one image: the pix-to-face entry produced by the
rasterizer (an integer that is -1 where no face is visible) together with the
pixel's color vector (uint8 channel values) from the label image. -/
structure Pixel (C : ℕ) where
  pixToFace : ℤ
  color : Fin C → ℕ

/-- The running accumulators of aggregate_viewpoints_pytorch3d:
face_colors is the uint32 array of summed per-channel values, counts the
uint16 per-face observation count. -/
structure DenseAccum (F C : ℕ) where
  faceColors : Fin F → Fin C → ℕ
  counts : Fin F → ℕ

/-- Line 466-472 of meshes.py: new_colors is a zero (n_faces, n_channels)
array and new_colors[pix_to_face] = img[...] writes each pixel's color to the
row indexed by its pix-to-face entry, sequentially (the last pixel that lands
on a row wins).  A pix-to-face entry of -1 addresses row F-1. -/
def newColorsFor (F C : ℕ) (hF : 0 < F) (img : List (Pixel C)) : Fin F → Fin C → ℕ :=
  img.foldl (fun nc px => Function.update nc (npIndex F hF px.pixToFace) px.color)
    (fun _ _ => 0)

/-- One iteration of the aggregation loop of aggregate_viewpoints_pytorch3d
(lines 452-477) for one image:
face_colors = face_colors + new_colors  (uint32 arithmetic), and
counts[np.unique(pix_to_face)] = counts[np.unique(pix_to_face)] + 1
(uint16 arithmetic).  The scatter assignment increments each DISTINCT indexed
row once, so a face's count grows by one exactly when some pixel's
pix-to-face entry addresses it — including the row F-1 addressed by the -1
sentinel. -/
def aggStep (F C : ℕ) (hF : 0 < F) (acc : DenseAccum F C) (img : List (Pixel C)) :
    DenseAccum F C :=
  let nc := newColorsFor F C hF img
  { faceColors := fun f c => (acc.faceColors f c + nc f c) % 4294967296
    counts := fun f =>
      if img.any (fun px => npIndex F hF px.pixToFace == f) then
        (acc.counts f + 1) % 65536
      else acc.counts f }

/-- The full return value of aggregate_viewpoints_pytorch3d. -/
structure DenseAggResult (F C : ℕ) where
  normalized : Fin F → Fin C → FVal
  faceColors : Fin F → Fin C → ℕ
  counts : Fin F → ℕ

/-- Line 479 of meshes.py:
normalized_face_colors = face_colors / np.expand_dims(counts, 1).
Every face's row is divided by that face's count, with no masking of
zero-count faces. -/
def normalize_dense (F C : ℕ) (summed : Fin F → Fin C → ℚ) (counts : Fin F → ℕ) :
    Fin F → Fin C → FVal :=
  fun f c => fdivF (FVal.val (summed f c)) (counts f)

/-- The number of divisions with a zero denominator performed by the
normalization line 479: the elementwise division processes every face's row,
so each face whose count is zero is divided by zero (once per channel; rows
are counted here). -/
def zero_count_divisions (F : ℕ) (counts : Fin F → ℕ) : ℕ :=
  ((List.finRange F).filter (fun f => decide (counts f = 0))).length

/-- TexturedPhotogrammetryMesh.aggregate_viewpoints_pytorch3d
(meshes.py lines 413-480): fold the per-image aggregation step over the
images of the camera set, then normalize by the counts.  An image is the
flattened list of its rasterized pixels. -/
def aggregate_viewpoints_pytorch3d (F C : ℕ) (hF : 0 < F)
    (imgs : List (List (Pixel C))) : DenseAggResult F C :=
  let acc := imgs.foldl (aggStep F C hF) ⟨fun _ _ => 0, fun _ => 0⟩
  { normalized := normalize_dense F C (fun f c => (acc.faceColors f c : ℚ)) acc.counts
    faceColors := acc.faceColors
    counts := acc.counts }

/-- The final normalization of the chunked dense aggregation
(geograypher/meshes/derived_meshes.py lines 274-287): rows of
summed_projections whose count is zero are first overwritten with NaN, and
then every row is divided by its count (NaN / 0 = NaN). -/
def chunked_finalize (F C : ℕ) (summed : Fin F → Fin C → ℚ) (counts : Fin F → ℕ) :
    Fin F → Fin C → FVal :=
  fun f c => fdivF (if counts f = 0 then FVal.nan else FVal.val (summed f c)) (counts f)

/-! ## Sparse aggregation
    TexturedPhotogrammetryMeshIndexPredictions.aggregate_projected_images
    (geograypher/meshes/derived_meshes.py, lines 385-516). -/

/-- The sparse accumulators: projection_counts is the uint16 csr (n_faces, 1)
observation-count column, summed_projections the uint16 csr
(n_faces, n_classes) count matrix.  Both are modelled by their cell contents;
a cell that was never written holds the implicit zero of the sparse format. -/
structure SparseAccum (F : ℕ) where
  counts : Fin F → ℕ
  summed : Fin F → ℕ → ℕ

/-- One iteration of the aggregation loop (lines 439-489) for one image.
The projection of one image is, per face, the class projected onto that face
(none where the projection is non-finite).  Faces with a finite projection are
found (line 449-451); if there are none the image is skipped entirely
(line 455-456, continue); otherwise each projected face's count cell and its
(face, class) summed cell are incremented by one, in uint16 arithmetic. -/
def sparse_step (F : ℕ) (acc : SparseAccum F) (proj : Fin F → Option ℕ) :
    SparseAccum F :=
  if (List.finRange F).all (fun f => (proj f).isNone) then acc
  else
    { counts := fun f =>
        if (proj f).isSome then (acc.counts f + 1) % 65536 else acc.counts f
      summed := fun f c =>
        if proj f = some c then (acc.summed f c + 1) % 65536 else acc.summed f c }

/-- The accumulation phase of
TexturedPhotogrammetryMeshIndexPredictions.aggregate_projected_images:
fold the per-image step over the generator of per-image projections, starting
from empty sparse arrays. -/
def sparse_aggregate (F : ℕ) (projs : List (Fin F → Option ℕ)) : SparseAccum F :=
  projs.foldl (sparse_step F) ⟨fun _ => 0, fun _ _ => 0⟩

/-- np.reciprocal applied to an element of the uint16 counts data array
(line 506): on an integer dtype np.reciprocal performs C integer division
1/n, so 1 maps to 1 and every n greater than 1 maps to 0.  (Lean's natural
division 1/n has exactly these values; 1/0 = 0 is never hit because only
stored, positive counts are passed.) -/
def np_reciprocal_int (n : ℕ) : ℕ := 1 / n

/-- The normalization of the sparse aggregation (lines 499-514): the
reciprocal array shares the sparse structure of projection_counts (a face
with no stored count keeps an implicit zero reciprocal), and the returned
average is the elementwise (broadcast) product
summed_projections.multiply(projection_counts_reciprocal). -/
def sparse_average (F : ℕ) (projs : List (Fin F → Option ℕ)) : Fin F → ℕ → ℕ :=
  let acc := sparse_aggregate F projs
  fun f c => acc.summed f c * np_reciprocal_int (acc.counts f)

/-! ## Rasterizer adapter
    TexturedPhotogrammetryMeshPyTorch3dRendering.pix2face
    (geograypher/meshes/derived_meshes.py, lines 599-686). -/

/-- The de-offsetting tail of pix2face (lines 660-686).  `raw k p` is the
backend's pix_to_face entry for batch element k at flattened pixel p (the
backend offsets the k-th element's face indices by k times the face count,
and writes -1 where no face is visible).  The code records the mask of -1
entries, subtracts the per-element offset k * n_faces from every entry, and
then restores -1 at the masked positions. -/
def pix2face_deoffset (nFaces : ℕ) (raw : ℕ → ℕ → ℤ) : ℕ → ℕ → ℤ :=
  fun k p => if raw k p = -1 then -1 else raw k p - k * nFaces

/-! ## Camera-to-render-space converter
    TexturedPhotogrammetryMeshPyTorch3dRendering.transform_into_pytorch3d_camera_set
    (geograypher/meshes/derived_meshes.py, lines 745-779). -/

/-- A photogrammetry camera, reduced to the data the batched conversion's
validation reads: its image size.  The remaining intrinsics and the pose play
no role in the size check. -/
structure PGCamera where
  imageHeight : ℕ
  imageWidth : ℕ
deriving DecidableEq

/-- The Python-level failure modes of the batched camera conversion. -/
inductive PyError where
  | typeError : PyError
  | valueError : PyError
  | indexError : PyError
  | inconsistentImageSize : PyError
deriving DecidableEq

/-- transform_into_pytorch3d_camera_set as written (lines 745-779).  The list
comprehension at lines 757-759 calls get_single_pytorch3d_camera(self.device,
camera), passing two positional arguments to a method whose signature
(line 688) takes a single camera argument, so Python raises TypeError on the
first iteration; any non-empty camera list therefore fails before the image
sizes are even read.  With an empty camera list the comprehension performs no
call, and the subsequent image_sizes[0] (line 761 via line 77x) raises
IndexError. -/
def transform_into_pytorch3d_camera_set (cams : List PGCamera) :
    Except PyError (List PGCamera) :=
  match cams with
  | [] => Except.error PyError.indexError
  | _ :: _ => Except.error PyError.typeError

/-- The same conversion with the arity slip at line 757 repaired (the call
passing only the camera), so that control reaches the size check: the image
sizes of all cameras are collected and compared against the first
(lines 761-763), and np.any of the mismatch list triggers
ValueError("Not all cameras have the same image size") at line 764; otherwise
the batched camera set is built. -/
def transform_into_pytorch3d_camera_set_fixed_call (cams : List PGCamera) :
    Except PyError (List PGCamera) :=
  match cams with
  | [] => Except.error PyError.indexError
  | c0 :: rest =>
      if (c0 :: rest).any (fun c => decide (¬ c = c0)) then
        Except.error PyError.valueError
      else Except.ok (c0 :: rest)

/-! ## Chunked dense aggregation
    TexturedPhotogrammetryMeshChunked (geograypher/meshes/derived_meshes.py,
    lines 18-287).

    The per-image projector is abstracted as the value each camera projects
    onto each parent-mesh face (none where the image does not observe the
    face); the chunk run rasterizes the sub-mesh whose i-th face is
    faceIDs[i], so its projection at sub-face i is the camera's projection at
    parent face faceIDs[i]. -/

/-- The per-image projection onto the parent mesh: for each face, the
projected channel vector, or none where the image does not observe it. -/
abbrev Proj (F C : ℕ) := Fin F → Option (Fin C → ℚ)

/-- One chunk produced by get_mesh_chunks_for_cameras: the Face ID Map back to
the parent mesh (the i-th sub-mesh face is parent face faceIDs[i]) and the
camera subset of the chunk's cluster, each camera given by its projection. -/
structure Chunk (F C : ℕ) where
  faceIDs : List (Fin F)
  cams : List (Proj F C)

/-- Modelled from the spec: the per-chunk call at lines 251-257 invokes
geograypher's TexturedPhotogrammetryMesh.aggregate_projected_images, whose
body is not part of the sources; spec section 4.4 (dense strategy) specifies
its accumulators as, per face, the count of images that project non-null data
onto it.  This is the chunk's projection_counts at sub-face i. -/
def chunkSubCounts (F C : ℕ) (ch : Chunk F C) : ℕ → ℕ :=
  fun i =>
    match ch.faceIDs.get? i with
    | some f => (ch.cams.filter (fun p => (p f).isSome)).length
    | none => 0

/-- Modelled from the spec: the chunk's summed per-channel projections at
sub-face i (spec section 4.4), with the rows of zero-count faces set to NaN
before being returned — the in-source mirror of that masking is the
"Same as the parent class" block at lines 274-276. -/
def chunkSubSummed (F C : ℕ) (ch : Chunk F C) : ℕ → Fin C → FVal :=
  fun i c =>
    match ch.faceIDs.get? i with
    | some f =>
        if (ch.cams.filter (fun p => (p f).isSome)).length = 0 then FVal.nan
        else FVal.val (((ch.cams.filterMap (fun p => p f)).map (fun v => v c)).sum)
    | none => FVal.nan

/-- The global accumulators of the chunked aggregation (lines 230-234):
summed_projections is a float array initialized to zeros, projection_counts an
int array initialized to zeros. -/
structure GlobalAccum (F C : ℕ) where
  summed : Fin F → Fin C → ℚ
  counts : Fin F → ℕ

/-- np.nansum applied at one cell of the stack of the running (finite) global
row and a chunk's masked row (line 262-268): NaN contributions are treated as
zero.  (Infinite values never occur in either argument: the global array only
ever holds finite sums, and a chunk row is either NaN or a finite sum.) -/
def nansumMerge (old : ℚ) (sub : FVal) : ℚ :=
  old + match sub with | FVal.val q => q | _ => 0

/-- A NumPy scatter assignment a[ids] = vals with RHS precomputed: the writes
happen sequentially along ids (the i-th write puts the value for slot i at
row ids[i]), so with duplicate ids the last write wins. -/
def scatterFrom (F : ℕ) {α : Type} (a : Fin F → α) (i : ℕ) (ids : List (Fin F))
    (v : ℕ → Fin F → α) : Fin F → α :=
  match ids with
  | [] => a
  | f :: rest => scatterFrom F (Function.update a f (v i f)) (i + 1) rest v

/-- One iteration of the chunk loop of
TexturedPhotogrammetryMeshChunked.aggregate_projected_images (lines 245-272):
chunks with an empty Face ID Map are skipped (lines 247-248); otherwise
summed_projections[face_IDs] = np.nansum([summed_projections[face_IDs],
sub_summed], axis=0) and projection_counts[face_IDs] =
projection_counts[face_IDs] + sub_counts, both scatter assignments whose
right-hand sides are gathered from the accumulators before any write. -/
def mergeChunk (F C : ℕ) (g : GlobalAccum F C) (ch : Chunk F C) : GlobalAccum F C :=
  if ch.faceIDs.isEmpty then g
  else
    { summed := scatterFrom F g.summed 0 ch.faceIDs
        (fun i f => fun c => nansumMerge (g.summed f c) (chunkSubSummed F C ch i c))
      counts := scatterFrom F g.counts 0 ch.faceIDs
        (fun i f => g.counts f + chunkSubCounts F C ch i) }

/-- The accumulation phase of the chunked aggregation (lines 230-272): fold
the chunk merge over the generator of chunks, starting from zeros. -/
def chunkedAccumulate (F C : ℕ) (chunks : List (Chunk F C)) : GlobalAccum F C :=
  chunks.foldl (mergeChunk F C) ⟨fun _ _ => 0, fun _ => 0⟩

/-- Modelled from the spec: the accumulators of the unchunked run of
geograypher's TexturedPhotogrammetryMesh.aggregate_projected_images over all
cameras (spec section 4.4, dense strategy) — the per-face count of images
projecting non-null data onto the face. -/
def denseCounts (F C : ℕ) (projs : List (Proj F C)) : Fin F → ℕ :=
  fun f => (projs.filter (fun p => (p f).isSome)).length

/-- Modelled from the spec: the summed per-channel projections of the
unchunked run over all cameras (spec section 4.4, dense strategy). -/
def denseSummed (F C : ℕ) (projs : List (Proj F C)) : Fin F → Fin C → ℚ :=
  fun f c => ((projs.filterMap (fun p => p f)).map (fun v => v c)).sum

/-! ## Spatial chunking generator
    TexturedPhotogrammetryMeshChunked.get_mesh_chunks_for_cameras
    (geograypher/meshes/derived_meshes.py, lines 21-127). -/

/-- get_mesh_chunks_for_cameras, with the geographic machinery abstracted:
clusterOf is the per-camera cluster id produced by KMeans.fit_predict
(line 71), and selectROI is select_mesh_ROI (lines 105-109), returning the
Face ID Map of the mesh region within the buffer distance of a camera subset.
The loop at lines 90-127 runs over cluster_ID in range(n_clusters), selects
the cameras of that cluster in index order, extracts the buffered sub-mesh,
and yields the (camera subset, Face ID Map) pair of EVERY cluster — there is
no emptiness test before the yield. -/
def get_mesh_chunks_for_cameras (F : ℕ) {Cam : Type} (cams : List Cam)
    (n_clusters : ℕ) (clusterOf : ℕ → ℕ) (selectROI : List Cam → List (Fin F)) :
    List (List Cam × List (Fin F)) :=
  (List.range n_clusters).map (fun cid =>
    let sub := (cams.enum.filter (fun p => decide (clusterOf p.1 = cid))).map
      (fun p => p.2)
    (sub, selectROI sub))

/-! ## Consensus extraction
    np.argmax semantics (first index attaining the maximum), used by
    aggregate_images (geograypher/entrypoints/aggregate_images.py,
    lines 155-158) and by TexturedPhotogrammetryMesh.vert_to_face_IDs
    (multiview_prediction_toolkit/meshes/meshes.py, lines 258-280). -/

/-- np.argmax over a 1-d array: the index of the FIRST element attaining the
maximum (0 for the empty list, where NumPy raises instead). -/
def npArgmax : List ℚ → ℕ
  | [] => 0
  | v :: rest => if rest.all (fun w => decide (w ≤ v)) then 0 else npArgmax rest + 1

/-- Line 156-158 of aggregate_images.py: the predicted class per face is
np.argmax over the class axis of the aggregated per-face values.  No jitter
or other randomization is involved on this path. -/
def predicted_face_classes (rows : List (List ℚ)) : List ℕ :=
  rows.map npArgmax

/-- The number of votes class i receives from the three vertices of one face
(line 260-266 of meshes.py: IDs_per_face = vert_IDs[self.faces], then
counts_per_class_per_face sums the matches per class). -/
def countTriple (V : ℕ) (vertIDs : Fin V → ℤ) (fc : Fin V × Fin V × Fin V)
    (i : ℕ) : ℕ :=
  (if vertIDs fc.1 = (i : ℤ) then 1 else 0) +
  (if vertIDs fc.2.1 = (i : ℤ) then 1 else 0) +
  (if vertIDs fc.2.2 = (i : ℤ) then 1 else 0)

/-- max_ID = np.max(vert_IDs) (line 262): the largest vertex ID. -/
def maxVertID (V : ℕ) (hV : 0 < V) (vertIDs : Fin V → ℤ) : ℤ :=
  (List.finRange V).foldl (fun m v => max m (vertIDs v)) (vertIDs ⟨0, hV⟩)

/-- The number of classes voted over: range(max_ID + 1) (line 265). -/
def numClasses (V : ℕ) (hV : 0 < V) (vertIDs : Fin V → ℤ) : ℕ :=
  (maxVertID V hV vertIDs + 1).toNat

/-- TexturedPhotogrammetryMesh.vert_to_face_IDs (meshes.py lines 258-280).
rand is the np.random.random((n_faces, n_classes)) draw, each entry in [0, 1);
the code always adds rand * 0.5 to the integer vote counts (lines 273-276)
and then takes np.argmax per row; rows whose vote counts are all zero are
overwritten with -1 (lines 269, 278). -/
def vert_to_face_IDs (V : ℕ) (hV : 0 < V) (faces : List (Fin V × Fin V × Fin V))
    (vertIDs : Fin V → ℤ) (rand : ℕ → ℕ → ℚ) : List ℤ :=
  let nC := numClasses V hV vertIDs
  faces.enum.map (fun t =>
    if ((List.range nC).map (countTriple V vertIDs t.2)).all (fun n => decide (n = 0))
    then (-1 : ℤ)
    else (npArgmax ((List.range nC).map
      (fun i => (countTriple V vertIDs t.2 i : ℚ) + rand t.1 i * (1 / 2))) : ℤ))

/-! ## Claims C1, C2: dense aggregation counting and normalization -/

/-- C1: the claim states that a pixel whose pix-to-face value is the -1
sentinel contributes to no face's count.  In the code, np.unique(pix_to_face)
retains the -1 sentinel and counts[unique_faces] then addresses row -1, the
LAST face; likewise new_colors[pix_to_face] writes the sentinel pixels' colors
onto the last face.  Evaluating the embedded code on a 2-face mesh and one
image whose only pixel sees no face: face 1 (the last face) receives an
observation count of 1 and the pixel's color, although no valid pixel touched
any face. -/
theorem C1_sentinel_pixel_increments_last_face :
    (aggregate_viewpoints_pytorch3d 2 1 (Nat.succ_pos 1) [[⟨-1, fun _ => 7⟩]]).counts 0 = 0
    ∧ (aggregate_viewpoints_pytorch3d 2 1 (Nat.succ_pos 1) [[⟨-1, fun _ => 7⟩]]).counts 1 = 1
    ∧ (aggregate_viewpoints_pytorch3d 2 1 (Nat.succ_pos 1) [[⟨-1, fun _ => 7⟩]]).faceColors 1 0 = 7 := by
  refine ⟨?_, ?_, ?_⟩ <;> rfl

/-- C2 (counterexample): the claim states the NaN for a zero-count face "is
never produced by dividing by a zero count".  Evaluating the unchunked
aggregation on a 1-face mesh with zero images: the face's count is zero, the
unguarded normalization line performs exactly one division whose denominator
is that zero count, and the NaN returned for the face is the result of that
0/0 division. -/
theorem C2_counterexample_nan_from_zero_division :
    (aggregate_viewpoints_pytorch3d 1 1 Nat.one_pos []).counts 0 = 0
    ∧ zero_count_divisions 1 (aggregate_viewpoints_pytorch3d 1 1 Nat.one_pos []).counts = 1
    ∧ (aggregate_viewpoints_pytorch3d 1 1 Nat.one_pos []).normalized 0 0
        = fdivF (FVal.val 0) 0
    ∧ fdivF (FVal.val 0) 0 = FVal.nan := by
  refine ⟨rfl, rfl, ?_, ?_⟩ <;> decide

/-- C2 (amended): for every face, a zero count yields the NaN sentinel in both
the unchunked normalization (where it arises as the IEEE 0/0 of the zero
summed value by the zero count) and the chunked finalization (where the
summed row is explicitly set to NaN first); a positive count yields the exact
average summed/count in both.  The hypothesis records the accumulation
invariant of both paths: a face no image touched has a zero summed value. -/
theorem C2_zero_count_nan_positive_count_average (F C : ℕ)
    (summed : Fin F → Fin C → ℚ) (counts : Fin F → ℕ) (f : Fin F) (c : Fin C)
    (hz : counts f = 0 → summed f c = 0) :
    (counts f = 0 →
      normalize_dense F C summed counts f c = FVal.nan
      ∧ chunked_finalize F C summed counts f c = FVal.nan)
    ∧ (0 < counts f →
      normalize_dense F C summed counts f c = FVal.val (summed f c / (counts f : ℚ))
      ∧ chunked_finalize F C summed counts f c = FVal.val (summed f c / (counts f : ℚ))) := by
  constructor
  · intro h0
    simp [normalize_dense, chunked_finalize, fdivF, h0, hz h0]
  · intro hpos
    have h0 : counts f ≠ 0 := Nat.pos_iff_ne_zero.mp hpos
    simp [normalize_dense, chunked_finalize, fdivF, h0]

/-- Witness for C2 (amended) at a concrete zero-count input and a concrete
positive-count input. -/
theorem C2_zero_count_nan_witness :
    (normalize_dense 1 1 (fun _ _ => 0) (fun _ => 0) 0 0 = FVal.nan
      ∧ chunked_finalize 1 1 (fun _ _ => 0) (fun _ => 0) 0 0 = FVal.nan)
    ∧ (normalize_dense 1 1 (fun _ _ => 6) (fun _ => 2) 0 0 = FVal.val (6 / 2)
      ∧ chunked_finalize 1 1 (fun _ _ => 6) (fun _ => 2) 0 0 = FVal.val (6 / 2)) :=
  ⟨(C2_zero_count_nan_positive_count_average 1 1 (fun _ _ => 0) (fun _ => 0) 0 0
      (fun _ => rfl)).1 rfl,
   (C2_zero_count_nan_positive_count_average 1 1 (fun _ _ => 6) (fun _ => 2) 0 0
      (fun h => absurd h (by decide))).2 (by decide)⟩

/-! ## Claim C4: sparse normalization -/

/-- C4: the claim states that for a face with count n > 0 every class entry of
the returned average equals its summed count divided by n.  The counts array
has dtype uint16, and np.reciprocal on an integer dtype performs C integer
division, so every count n ≥ 2 has reciprocal 0.  Evaluating the embedded
code on one face observed by two images with the same class: the summed cell
is 2 and the count is 2, but the returned average entry is 0, not 1. -/
theorem C4_integer_reciprocal_zeroes_average :
    (sparse_aggregate 1 [fun _ => some 0, fun _ => some 0]).counts 0 = 2
    ∧ (sparse_aggregate 1 [fun _ => some 0, fun _ => some 0]).summed 0 0 = 2
    ∧ np_reciprocal_int 2 = 0
    ∧ sparse_average 1 [fun _ => some 0, fun _ => some 0] 0 0 = 0 := by
  refine ⟨?_, ?_, ?_, ?_⟩ <;> rfl

/-! ## Claim C10: all-null images are a no-op in sparse aggregation -/

/-- C10: an image whose projection contains no finite entry leaves both sparse
accumulators exactly unchanged — the loop body finds no projected face
indices and skips the image. -/
theorem C10_allnull_image_is_noop (F : ℕ) (acc : SparseAccum F)
    (proj : Fin F → Option ℕ) (h : ∀ f, proj f = none) :
    sparse_step F acc proj = acc := by
  have hall : ((List.finRange F).all (fun f => (proj f).isNone)) = true := by
    rw [List.all_eq_true]
    intro f _
    rw [h f]
    rfl
  simp [sparse_step, hall]

/-- A concrete sparse accumulator state used by the C10 witness. -/
def sparseAccumW : SparseAccum 1 := ⟨fun _ => 3, fun _ _ => 4⟩

/-- The all-null projection used by the C10 witness. -/
def projW : Fin 1 → Option ℕ := fun _ => none

/-- Witness for C10 at a concrete accumulator and all-null image. -/
theorem C10_allnull_image_is_noop_witness :
    (∀ f : Fin 1, projW f = none) ∧ sparse_step 1 sparseAccumW projW = sparseAccumW :=
  ⟨fun _ => rfl, C10_allnull_image_is_noop 1 sparseAccumW projW (fun _ => rfl)⟩

/-! ## Claim C6: pix2face batch de-offsetting -/

/-- C6: when the backend returns, for batch element k, either the -1 sentinel
or a face index offset into [k*n, (k+1)*n), the adapter's de-offsetting maps
every valid entry into the single-mesh index space [0, n) and returns the
sentinel unchanged (the -1 mask is restored after the subtraction, so the
sentinel is never shifted). -/
theorem C6_deoffset_range_and_sentinel (nFaces batch : ℕ) (raw : ℕ → ℕ → ℤ)
    (h : ∀ k, k < batch → ∀ p, raw k p = -1 ∨
      ((k : ℤ) * (nFaces : ℤ) ≤ raw k p ∧ raw k p < ((k : ℤ) + 1) * (nFaces : ℤ))) :
    ∀ k, k < batch → ∀ p,
      (pix2face_deoffset nFaces raw k p = -1 ↔ raw k p = -1)
      ∧ (raw k p ≠ -1 →
          0 ≤ pix2face_deoffset nFaces raw k p
          ∧ pix2face_deoffset nFaces raw k p < (nFaces : ℤ)) := by
  intro k hk p
  have hK : (0 : ℤ) ≤ (k : ℤ) * (nFaces : ℤ) := by positivity
  have hsucc : ((k : ℤ) + 1) * (nFaces : ℤ) = (k : ℤ) * (nFaces : ℤ) + (nFaces : ℤ) := by
    ring
  rcases h k hk p with h1 | h2
  · constructor
    · simp [pix2face_deoffset, h1]
    · intro hne
      exact absurd h1 hne
  · have hge : (k : ℤ) * (nFaces : ℤ) ≤ raw k p := h2.1
    have hlt : raw k p < (k : ℤ) * (nFaces : ℤ) + (nFaces : ℤ) := by
      rw [← hsucc]; exact h2.2
    have hne : raw k p ≠ -1 := by intro he; rw [he] at hge; linarith
    constructor
    · rw [pix2face_deoffset, if_neg hne]
      constructor
      · intro habs
        linarith [habs]
      · intro habs
        exact absurd habs hne
    · intro _
      rw [pix2face_deoffset, if_neg hne]
      constructor
      · linarith
      · linarith

/-- The backend output used by the C6 witness: batch element 0 sees nothing
(sentinel everywhere), batch element 1 reports the offset face index 4. -/
def rawW : ℕ → ℕ → ℤ := fun k _ => if k = 0 then -1 else 4

/-- Witness for C6 with three faces and a batch of two cameras. -/
theorem C6_deoffset_range_and_sentinel_witness :
    ((pix2face_deoffset 3 rawW 1 0 = -1 ↔ rawW 1 0 = -1)
      ∧ (rawW 1 0 ≠ -1 →
          0 ≤ pix2face_deoffset 3 rawW 1 0 ∧ pix2face_deoffset 3 rawW 1 0 < (3 : ℤ)))
    ∧ ((pix2face_deoffset 3 rawW 0 5 = -1 ↔ rawW 0 5 = -1)
      ∧ (rawW 0 5 ≠ -1 →
          0 ≤ pix2face_deoffset 3 rawW 0 5 ∧ pix2face_deoffset 3 rawW 0 5 < (3 : ℤ))) := by
  have hb : ∀ k, k < 2 → ∀ p, rawW k p = -1 ∨
      ((k : ℤ) * (3 : ℤ) ≤ rawW k p ∧ rawW k p < ((k : ℤ) + 1) * (3 : ℤ)) := by
    intro k hk p
    match k, hk with
    | 0, _ => exact Or.inl rfl
    | 1, _ => exact Or.inr (by norm_num [rawW])
  exact ⟨C6_deoffset_range_and_sentinel 3 2 rawW hb 1 (by norm_num) 0,
         C6_deoffset_range_and_sentinel 3 2 rawW hb 0 (by norm_num) 5⟩

/-! ## Claim C8: batched camera conversion -/

/-- C8: the claim states that converting cameras with differing image sizes
fails with InconsistentImageSizeError.  Evaluating the embedded code on two
cameras of different resolutions: the function as written raises TypeError on
the first per-camera conversion (the call at line 757 passes two arguments to
the one-argument get_single_pytorch3d_camera), before any size is read; and
even with that call repaired, the size check raises a plain
ValueError("Not all cameras have the same image size"), not an
InconsistentImageSizeError, which the sources never define or raise. -/
theorem C8_size_mismatch_raises_typeerror :
    transform_into_pytorch3d_camera_set [⟨100, 100⟩, ⟨50, 50⟩]
      = Except.error PyError.typeError
    ∧ transform_into_pytorch3d_camera_set_fixed_call [⟨100, 100⟩, ⟨50, 50⟩]
      = Except.error PyError.valueError
    ∧ transform_into_pytorch3d_camera_set [⟨100, 100⟩, ⟨50, 50⟩]
      ≠ Except.error PyError.inconsistentImageSize
    ∧ transform_into_pytorch3d_camera_set_fixed_call [⟨100, 100⟩, ⟨50, 50⟩]
      ≠ Except.error PyError.inconsistentImageSize := by
  refine ⟨rfl, rfl, ?_, ?_⟩
  · intro h
    rw [show transform_into_pytorch3d_camera_set [⟨100, 100⟩, ⟨50, 50⟩]
      = Except.error PyError.typeError from rfl] at h
    injection h with h'
    exact absurd h' (by decide)
  · intro h
    rw [show transform_into_pytorch3d_camera_set_fixed_call [⟨100, 100⟩, ⟨50, 50⟩]
      = Except.error PyError.valueError from rfl] at h
    injection h with h'
    exact absurd h' (by decide)

/-! ## Claim C5: the chunk generator and empty chunks -/

/-- C5 (counterexample): the claim states that a cluster whose buffered region
intersects zero mesh faces is not yielded.  Evaluating the embedded generator
with one cluster whose region selects no faces: the generator still yields
exactly one (camera subset, Face ID Map) pair, with an empty Face ID Map. -/
theorem C5_counterexample_empty_cluster_is_yielded :
    (get_mesh_chunks_for_cameras 1 ([0] : List ℕ) 1 (fun _ => 0)
      (fun _ => ([] : List (Fin 1)))).length = 1
    ∧ get_mesh_chunks_for_cameras 1 ([0] : List ℕ) 1 (fun _ => 0)
      (fun _ => ([] : List (Fin 1))) = [([0], [])] :=
  ⟨rfl, rfl⟩

/-- C5 (amended): the generator yields exactly one (camera subset, Face ID
Map) pair per cluster, zero-face clusters included; it is the downstream
chunked aggregation that skips a chunk with an empty Face ID Map
(the continue at lines 247-248), leaving the global accumulators exactly
unchanged, so a zero-face chunk is a no-op contribution. -/
theorem C5_one_chunk_per_cluster_and_empty_chunk_noop (F : ℕ) {Cam : Type}
    (cams : List Cam) (n_clusters : ℕ) (clusterOf : ℕ → ℕ)
    (selectROI : List Cam → List (Fin F)) (Cch : ℕ) :
    (get_mesh_chunks_for_cameras F cams n_clusters clusterOf selectROI).length
      = n_clusters
    ∧ ∀ (g : GlobalAccum F Cch) (ch : Chunk F Cch),
        ch.faceIDs = [] → mergeChunk F Cch g ch = g := by
  constructor
  · simp [get_mesh_chunks_for_cameras]
  · intro g ch h
    simp [mergeChunk, h]

/-- The global accumulator used by the C5 witness. -/
def gW : GlobalAccum 1 1 := ⟨fun _ _ => 5, fun _ => 2⟩

/-- The zero-face chunk used by the C5 witness. -/
def chW : Chunk 1 1 := ⟨[], [fun _ => none]⟩

/-- Witness for C5 (amended): two clusters yield two chunks, and merging a
zero-face chunk leaves a concrete accumulator unchanged. -/
theorem C5_one_chunk_per_cluster_witness :
    (get_mesh_chunks_for_cameras 1 ([0, 1] : List ℕ) 2 (fun i => i)
      (fun _ => ([] : List (Fin 1)))).length = 2
    ∧ mergeChunk 1 1 gW chW = gW :=
  ⟨(C5_one_chunk_per_cluster_and_empty_chunk_noop 1 ([0, 1] : List ℕ) 2 (fun i => i)
      (fun _ => ([] : List (Fin 1))) 1).1,
   (C5_one_chunk_per_cluster_and_empty_chunk_noop 1 ([] : List ℕ) 2 (fun i => i)
      (fun _ => ([] : List (Fin 1))) 1).2 gW chW rfl⟩

/-! ## np.argmax characterization lemmas -/

theorem npArgmax_cons (v : ℚ) (rest : List ℚ) :
    npArgmax (v :: rest)
      = if rest.all (fun w => decide (w ≤ v)) then 0 else npArgmax rest + 1 := rfl

theorem npArgmax_lt_length (l : List ℚ) (h : l ≠ []) : npArgmax l < l.length := by
  induction l with
  | nil => exact absurd rfl h
  | cons v rest ih =>
    rw [npArgmax_cons]
    by_cases hall : rest.all (fun w => decide (w ≤ v)) = true
    · rw [if_pos hall]
      simp
    · rw [if_neg hall]
      rcases rest with _ | ⟨w, ws⟩
      · simp at hall
      · have hlt := ih (by simp)
        simpa using Nat.succ_lt_succ hlt

theorem npArgmax_getD_le (l : List ℚ) (j : ℕ) (hj : j < l.length) :
    l.getD j 0 ≤ l.getD (npArgmax l) 0 := by
  induction l generalizing j with
  | nil => simp at hj
  | cons v rest ih =>
    rw [npArgmax_cons]
    by_cases hall : rest.all (fun w => decide (w ≤ v)) = true
    · rw [if_pos hall, List.getD_cons_zero]
      have hv : ∀ w ∈ rest, w ≤ v := by
        intro w hw
        simpa using List.all_eq_true.mp hall w hw
      rcases j with _ | j
      · rw [List.getD_cons_zero]
      · rw [List.getD_cons_succ]
        have hjl : j < rest.length := by simpa using hj
        rw [List.getD_eq_getElem rest 0 hjl]
        exact hv _ (List.getElem_mem hjl)
    · rw [if_neg hall]
      have hex : ∃ w ∈ rest, v < w := by
        have h1 : ¬ ∀ x ∈ rest, decide (x ≤ v) = true := by
          intro hforall
          exact hall (List.all_eq_true.mpr hforall)
        push_neg at h1
        obtain ⟨w, hw, hnw⟩ := h1
        exact ⟨w, hw, lt_of_not_le (by simpa using hnw)⟩
      rcases j with _ | j
      · rw [List.getD_cons_zero, List.getD_cons_succ]
        obtain ⟨w, hw, hvw⟩ := hex
        obtain ⟨n, hn⟩ := List.mem_iff_get.mp hw
        have hgle := ih n.val n.isLt
        rw [List.getD_eq_getElem rest 0 n.isLt, ← List.get_eq_getElem, hn] at hgle
        linarith
      · rw [List.getD_cons_succ, List.getD_cons_succ]
        exact ih j (by simpa using hj)

theorem npArgmax_getD_lt (l : List ℚ) (j : ℕ) (hj : j < npArgmax l) :
    l.getD j 0 < l.getD (npArgmax l) 0 := by
  induction l generalizing j with
  | nil => simp [npArgmax] at hj
  | cons v rest ih =>
    rw [npArgmax_cons] at hj ⊢
    by_cases hall : rest.all (fun w => decide (w ≤ v)) = true
    · rw [if_pos hall] at hj
      simp at hj
    · rw [if_neg hall] at hj ⊢
      have hex : ∃ w ∈ rest, v < w := by
        have h1 : ¬ ∀ x ∈ rest, decide (x ≤ v) = true := by
          intro hforall
          exact hall (List.all_eq_true.mpr hforall)
        push_neg at h1
        obtain ⟨w, hw, hnw⟩ := h1
        exact ⟨w, hw, lt_of_not_le (by simpa using hnw)⟩
      rcases j with _ | j
      · rw [List.getD_cons_zero, List.getD_cons_succ]
        obtain ⟨w, hw, hvw⟩ := hex
        obtain ⟨n, hn⟩ := List.mem_iff_get.mp hw
        have hgle := npArgmax_getD_le rest n.val n.isLt
        rw [List.getD_eq_getElem rest 0 n.isLt, ← List.get_eq_getElem, hn] at hgle
        linarith
      · rw [List.getD_cons_succ, List.getD_cons_succ]
        exact ih j (by omega)

theorem npArgmax_eq_of_unique_max (l : List ℚ) (m : ℕ) (hm : m < l.length)
    (h : ∀ j, j < l.length → j ≠ m → l.getD j 0 < l.getD m 0) : npArgmax l = m := by
  by_contra hne
  have hnil : l ≠ [] := by
    intro h0
    rw [h0] at hm
    simp at hm
  have hlt := npArgmax_lt_length l hnil
  have h1 := npArgmax_getD_le l m hm
  have h2 := h (npArgmax l) hlt hne
  linarith

theorem jitterRow_getD (nC : ℕ) (cnt : ℕ → ℕ) (r : ℕ → ℚ) (i : ℕ) (hi : i < nC) :
    ((List.range nC).map (fun k => (cnt k : ℚ) + r k * (1 / 2))).getD i 0
      = (cnt i : ℚ) + r i * (1 / 2) := by
  rw [List.getD_eq_getElem _ _ (by simpa using hi)]
  simp

theorem jitter_lt_of_lt (ci cm : ℕ) (ri rm : ℚ) (hri : 0 ≤ ri ∧ ri < 1)
    (hrm : 0 ≤ rm ∧ rm < 1) (h : ci < cm) :
    (ci : ℚ) + ri * (1 / 2) < (cm : ℚ) + rm * (1 / 2) := by
  have hcast : (ci : ℚ) + 1 ≤ (cm : ℚ) := by exact_mod_cast h
  linarith [hri.1, hri.2, hrm.1, hrm.2]

theorem le_of_jitter_le (ci cm : ℕ) (ri rm : ℚ) (hri : 0 ≤ ri ∧ ri < 1)
    (hrm : 0 ≤ rm ∧ rm < 1)
    (h : (ci : ℚ) + ri * (1 / 2) ≤ (cm : ℚ) + rm * (1 / 2)) : ci ≤ cm := by
  by_contra hlt
  push_neg at hlt
  have := jitter_lt_of_lt cm ci rm ri hrm hri hlt
  linarith

theorem vert_to_face_IDs_getElem (V : ℕ) (hV : 0 < V)
    (faces : List (Fin V × Fin V × Fin V)) (vertIDs : Fin V → ℤ)
    (rand : ℕ → ℕ → ℚ) (t : ℕ) (fc : Fin V × Fin V × Fin V)
    (ht : faces[t]? = some fc) :
    (vert_to_face_IDs V hV faces vertIDs rand)[t]? = some
      (if ((List.range (numClasses V hV vertIDs)).map
            (countTriple V vertIDs fc)).all (fun n => decide (n = 0))
       then (-1 : ℤ)
       else (npArgmax ((List.range (numClasses V hV vertIDs)).map
         (fun i => (countTriple V vertIDs fc i : ℚ) + rand t i * (1 / 2))) : ℤ)) := by
  rw [vert_to_face_IDs, List.getElem?_map, List.getElem?_enum, ht]
  rfl

/-! ## Claims C7, C9: consensus extraction and jitter -/

/-- C9: in vert_to_face_IDs the jitter added to the integer vote counts is
rand * 0.5 with rand drawn from [0, 1), so each jitter term lies in [0, 0.5);
for every face whose highest-voted class strictly exceeds every other class's
vote count, the returned class is that class for every possible draw. -/
theorem C9_strict_max_immune_to_jitter (V : ℕ) (hV : 0 < V)
    (faces : List (Fin V × Fin V × Fin V)) (vertIDs : Fin V → ℤ)
    (rand : ℕ → ℕ → ℚ) (hr : ∀ s i, 0 ≤ rand s i ∧ rand s i < 1)
    (t : ℕ) (fc : Fin V × Fin V × Fin V) (ht : faces[t]? = some fc) (m : ℕ)
    (hm : m < numClasses V hV vertIDs)
    (hpos : 0 < countTriple V vertIDs fc m)
    (hstrict : ∀ i, i < numClasses V hV vertIDs → i ≠ m →
      countTriple V vertIDs fc i < countTriple V vertIDs fc m) :
    (vert_to_face_IDs V hV faces vertIDs rand)[t]? = some (m : ℤ) := by
  rw [vert_to_face_IDs_getElem V hV faces vertIDs rand t fc ht]
  have hnz : (((List.range (numClasses V hV vertIDs)).map
      (countTriple V vertIDs fc)).all (fun n => decide (n = 0))) = false := by
    rw [Bool.eq_false_iff]
    intro hall
    have hmem : countTriple V vertIDs fc m ∈
        (List.range (numClasses V hV vertIDs)).map (countTriple V vertIDs fc) :=
      List.mem_map.mpr ⟨m, List.mem_range.mpr hm, rfl⟩
    have := List.all_eq_true.mp hall _ hmem
    simp at this
    omega
  have harg : npArgmax ((List.range (numClasses V hV vertIDs)).map
      (fun i => (countTriple V vertIDs fc i : ℚ) + rand t i * (1 / 2))) = m := by
    apply npArgmax_eq_of_unique_max
    · simpa using hm
    · intro j hj hne
      have hjlen : j < numClasses V hV vertIDs := by simpa using hj
      rw [jitterRow_getD _ _ _ j hjlen, jitterRow_getD _ _ _ m hm]
      exact jitter_lt_of_lt _ _ _ _ (hr t j) (hr t m) (hstrict j hjlen hne)
  simp only [hnz, Bool.false_eq_true, if_false, harg]

/-- The all-ones vertex labeling used by the C9 witness. -/
def vertIDsOne : Fin 3 → ℤ := fun _ => 1

/-- The jitter draw used by the C9 witness: it favors class 0, which has
strictly fewer votes than class 1, and cannot flip the outcome. -/
def randLow : ℕ → ℕ → ℚ := fun _ i => if i = 0 then 9 / 10 else 0

/-- Witness for C9: all three vertices vote class 1 (3 votes versus 0), and
with an adversarial legal draw the returned class is still 1. -/
theorem C9_strict_max_immune_to_jitter_witness :
    (vert_to_face_IDs 3 (Nat.succ_pos 2) [(0, 1, 2)] vertIDsOne randLow)[0]?
      = some (1 : ℤ) := by
  refine C9_strict_max_immune_to_jitter 3 (Nat.succ_pos 2) [(0, 1, 2)] vertIDsOne
    randLow ?_ 0 (0, 1, 2) rfl 1 (by decide) (by decide) ?_
  · intro s i
    by_cases hi : i = 0 <;> constructor <;> simp [randLow, hi] <;> norm_num
  · intro i hi hne
    have h2 : numClasses 3 (Nat.succ_pos 2) vertIDsOne = 2 := rfl
    rw [h2] at hi
    have h0 : i = 0 := by omega
    rw [h0]
    decide

/-- The jitter draw of the C7 counterexample: legal (each entry in [0, 1))
and putting 9/10 on class 1. -/
def randFlip : ℕ → ℕ → ℚ := fun _ i => if i = 1 then 9 / 10 else 0

/-- The vertex labeling of the C7 counterexample: one vote each for classes 0
and 1 (the third vertex is unlabeled). -/
def vertIDsTie : Fin 3 → ℤ := fun v => if v = 0 then 0 else if v = 1 then 1 else -1

/-- C7 (counterexample): the claim states that exact ties are broken toward
the lowest class index by default, jitter being added only when a randomized
tie-break is explicitly requested.  vert_to_face_IDs has no such request
mechanism and always adds the jitter: on a face whose classes 0 and 1 are
exactly tied with one vote each, a legal draw makes the code return class 1,
whereas first-argmax semantics on the tied integer counts returns 0. -/
theorem C7_counterexample_jitter_overrides_first_argmax :
    (vert_to_face_IDs 3 (Nat.succ_pos 2) [(0, 1, 2)] vertIDsTie randFlip)[0]?
      = some (1 : ℤ)
    ∧ (∀ s i, 0 ≤ randFlip s i ∧ randFlip s i < 1)
    ∧ countTriple 3 vertIDsTie (0, 1, 2) 0 = 1
    ∧ countTriple 3 vertIDsTie (0, 1, 2) 1 = 1
    ∧ npArgmax [(1 : ℚ), 1] = 0 := by
  have hn2 : numClasses 3 (Nat.succ_pos 2) vertIDsTie = 2 := rfl
  refine ⟨?_, ?_, by decide, by decide, by decide⟩
  · rw [vert_to_face_IDs_getElem 3 (Nat.succ_pos 2) [(0, 1, 2)] vertIDsTie randFlip
      0 (0, 1, 2) rfl, hn2]
    have hnz : (((List.range 2).map (countTriple 3 vertIDsTie (0, 1, 2))).all
        (fun n => decide (n = 0))) = false := by decide
    have harg : npArgmax ((List.range 2).map
        (fun i => (countTriple 3 vertIDsTie (0, 1, 2) i : ℚ)
          + randFlip 0 i * (1 / 2))) = 1 := by
      apply npArgmax_eq_of_unique_max
      · simp
      · intro j hj hne
        have hj0 : j = 0 := by
          simp at hj
          omega
        subst hj0
        rw [jitterRow_getD 2 _ _ 0 (by norm_num), jitterRow_getD 2 _ _ 1 (by norm_num)]
        have hc0 : countTriple 3 vertIDsTie (0, 1, 2) 0 = 1 := by decide
        have hc1 : countTriple 3 vertIDsTie (0, 1, 2) 1 = 1 := by decide
        have hr0 : randFlip 0 0 = 0 := rfl
        have hr1 : randFlip 0 1 = 9 / 10 := rfl
        rw [hc0, hc1, hr0, hr1]
        norm_num
    simp only [hnz, Bool.false_eq_true, if_false, harg]
    norm_num
  · intro s i
    by_cases hi : i = 1 <;> constructor <;> simp [randFlip, hi] <;> norm_num

/-- C7 (amended): consensus extraction in aggregate_images is the plain
np.argmax of each face's aggregated values — the first (lowest) index
attaining the maximum, with no jitter — while vert_to_face_IDs
unconditionally adds a jitter in [0, 0.5) to the integer vote counts before
its argmax (there is no flag requesting or disabling it), so its randomness
affects only classes whose integer vote counts are exactly tied: for every
legal draw the returned class is a maximizer of the integer vote counts. -/
theorem C7_first_argmax_default_jitter_only_on_ties :
    (∀ (rows : List (List ℚ)) (t : ℕ) (row : List ℚ), rows[t]? = some row →
      (predicted_face_classes rows)[t]? = some (npArgmax row)
      ∧ (row ≠ [] → npArgmax row < row.length)
      ∧ (∀ j, j < row.length → row.getD j 0 ≤ row.getD (npArgmax row) 0)
      ∧ (∀ j, j < npArgmax row → row.getD j 0 < row.getD (npArgmax row) 0))
    ∧ (∀ (V : ℕ) (hV : 0 < V) (faces : List (Fin V × Fin V × Fin V))
        (vertIDs : Fin V → ℤ) (rand : ℕ → ℕ → ℚ),
        (∀ s i, 0 ≤ rand s i ∧ rand s i < 1) →
        ∀ (t : ℕ) (fc : Fin V × Fin V × Fin V), faces[t]? = some fc →
        ∀ i0, i0 < numClasses V hV vertIDs → countTriple V vertIDs fc i0 ≠ 0 →
        ∃ r : ℕ, (vert_to_face_IDs V hV faces vertIDs rand)[t]? = some (r : ℤ)
          ∧ r < numClasses V hV vertIDs
          ∧ ∀ i, i < numClasses V hV vertIDs →
              countTriple V vertIDs fc i ≤ countTriple V vertIDs fc r) := by
  constructor
  · intro rows t row ht
    refine ⟨?_, ?_, ?_, ?_⟩
    · rw [predicted_face_classes, List.getElem?_map, ht]
      rfl
    · intro hne
      exact npArgmax_lt_length row hne
    · intro j hj
      exact npArgmax_getD_le row j hj
    · intro j hj
      exact npArgmax_getD_lt row j hj
  · intro V hV faces vertIDs rand hr t fc ht i0 hi0 hc0
    rw [vert_to_face_IDs_getElem V hV faces vertIDs rand t fc ht]
    have hnz : (((List.range (numClasses V hV vertIDs)).map
        (countTriple V vertIDs fc)).all (fun n => decide (n = 0))) = false := by
      rw [Bool.eq_false_iff]
      intro hall
      have hmem : countTriple V vertIDs fc i0 ∈
          (List.range (numClasses V hV vertIDs)).map (countTriple V vertIDs fc) :=
        List.mem_map.mpr ⟨i0, List.mem_range.mpr hi0, rfl⟩
      have := List.all_eq_true.mp hall _ hmem
      simp at this
      omega
    set jl := (List.range (numClasses V hV vertIDs)).map
      (fun i => (countTriple V vertIDs fc i : ℚ) + rand t i * (1 / 2)) with hjl
    have hlen : jl.length = numClasses V hV vertIDs := by
      rw [hjl]
      simp
    have hnil : jl ≠ [] := by
      intro h0
      rw [h0] at hlen
      simp at hlen
      omega
    have hrlt : npArgmax jl < numClasses V hV vertIDs := by
      rw [← hlen]
      exact npArgmax_lt_length jl hnil
    refine ⟨npArgmax jl, ?_, hrlt, ?_⟩
    · simp only [hnz, Bool.false_eq_true, if_false]
    · intro i hi
      have hle := npArgmax_getD_le jl i (by rw [hlen]; exact hi)
      rw [hjl] at hle
      rw [jitterRow_getD _ _ _ i hi, jitterRow_getD _ _ _ (npArgmax jl) hrlt] at hle
      exact le_of_jitter_le _ _ _ _ (hr t i) (hr t (npArgmax jl)) hle

/-- Witness for C7 (amended): the aggregate_images path on a concrete
two-class row, and the vert_to_face_IDs path on the tied concrete face with
the adversarial legal draw of the counterexample's shape. -/
theorem C7_first_argmax_default_jitter_witness :
    ((predicted_face_classes [[(1 : ℚ), 2]])[0]? = some (npArgmax [(1 : ℚ), 2])
      ∧ ([(1 : ℚ), 2] ≠ [] → npArgmax [(1 : ℚ), 2] < ([(1 : ℚ), 2] : List ℚ).length)
      ∧ (∀ j, j < ([(1 : ℚ), 2] : List ℚ).length →
          ([(1 : ℚ), 2] : List ℚ).getD j 0 ≤ ([(1 : ℚ), 2] : List ℚ).getD (npArgmax [(1 : ℚ), 2]) 0)
      ∧ (∀ j, j < npArgmax [(1 : ℚ), 2] →
          ([(1 : ℚ), 2] : List ℚ).getD j 0 < ([(1 : ℚ), 2] : List ℚ).getD (npArgmax [(1 : ℚ), 2]) 0))
    ∧ (∃ r : ℕ, (vert_to_face_IDs 3 (Nat.succ_pos 2) [(0, 1, 2)] vertIDsOne randLow)[0]?
        = some (r : ℤ)
        ∧ r < numClasses 3 (Nat.succ_pos 2) vertIDsOne
        ∧ ∀ i, i < numClasses 3 (Nat.succ_pos 2) vertIDsOne →
            countTriple 3 vertIDsOne (0, 1, 2) i ≤ countTriple 3 vertIDsOne (0, 1, 2) r) :=
  ⟨C7_first_argmax_default_jitter_only_on_ties.1 [[(1 : ℚ), 2]] 0 [(1 : ℚ), 2] rfl,
   C7_first_argmax_default_jitter_only_on_ties.2 3 (Nat.succ_pos 2) [(0, 1, 2)]
     vertIDsOne randLow
     (fun s i => by
       by_cases hi : i = 0 <;> constructor <;> simp [randLow, hi] <;> norm_num)
     0 (0, 1, 2) rfl 1 (by decide) (by decide)⟩

/-! ## Claim C3: chunked aggregation merges to the unchunked accumulators -/

theorem scatterFrom_cons (F : ℕ) {α : Type} (a : Fin F → α) (i : ℕ) (g : Fin F)
    (rest : List (Fin F)) (v : ℕ → Fin F → α) :
    scatterFrom F a i (g :: rest) v
      = scatterFrom F (Function.update a g (v i g)) (i + 1) rest v := rfl

theorem scatterFrom_not_mem (F : ℕ) {α : Type} (a : Fin F → α) (i : ℕ)
    (ids : List (Fin F)) (v : ℕ → Fin F → α) (f : Fin F) (hf : f ∉ ids) :
    scatterFrom F a i ids v f = a f := by
  induction ids generalizing a i with
  | nil => rfl
  | cons g rest ih =>
    have hfg : f ≠ g := by
      intro h
      exact hf (h ▸ List.mem_cons_self g rest)
    have hfr : f ∉ rest := fun h => hf (List.mem_cons_of_mem g h)
    rw [scatterFrom_cons, ih _ _ hfr]
    exact Function.update_noteq hfg _ a

theorem scatterFrom_mem (F : ℕ) {α : Type} (a : Fin F → α) (i : ℕ)
    (ids : List (Fin F)) (v : ℕ → Fin F → α) (f : Fin F)
    (hnd : ids.Nodup) (hf : f ∈ ids) :
    ∃ j, ids.get? j = some f ∧ scatterFrom F a i ids v f = v (i + j) f := by
  induction ids generalizing a i with
  | nil => simp at hf
  | cons g rest ih =>
    rw [scatterFrom_cons]
    rcases List.mem_cons.mp hf with h | h
    · subst h
      have hfr : f ∉ rest := (List.nodup_cons.mp hnd).1
      refine ⟨0, rfl, ?_⟩
      rw [scatterFrom_not_mem _ _ _ _ _ _ hfr, Function.update_same, Nat.add_zero]
    · have hnd' : rest.Nodup := (List.nodup_cons.mp hnd).2
      obtain ⟨j, hj, he⟩ := ih (Function.update a g (v i g)) (i + 1) hnd' h
      refine ⟨j + 1, by simpa using hj, ?_⟩
      rw [he]
      have harith : i + 1 + j = i + (j + 1) := by omega
      rw [harith]

theorem filterMap_proj_eq_nil (F C : ℕ) (cams : List (Proj F C)) (f : Fin F)
    (h : (cams.filter (fun p => (p f).isSome)).length = 0) :
    cams.filterMap (fun p => p f) = [] := by
  rw [List.filterMap_eq_nil_iff]
  intro p hp
  cases hpf : p f with
  | none => rfl
  | some w =>
      exfalso
      have hmem : p ∈ cams.filter (fun p => (p f).isSome) := by
        rw [List.mem_filter]
        exact ⟨hp, by rw [hpf]; rfl⟩
      rw [List.length_eq_zero] at h
      rw [h] at hmem
      simp at hmem

theorem mergeChunk_counts (F C : ℕ) (g : GlobalAccum F C) (ch : Chunk F C)
    (hnd : ch.faceIDs.Nodup)
    (hsupp : ∀ p ∈ ch.cams, ∀ f : Fin F, (p f).isSome → f ∈ ch.faceIDs)
    (f : Fin F) :
    (mergeChunk F C g ch).counts f = g.counts f + denseCounts F C ch.cams f := by
  by_cases hmem : f ∈ ch.faceIDs
  · have hne : ¬ (ch.faceIDs.isEmpty = true) := by
      intro h
      exact List.ne_nil_of_mem hmem (List.isEmpty_iff.mp h)
    obtain ⟨j, hj, he⟩ :=
      scatterFrom_mem F g.counts 0 ch.faceIDs
        (fun i f => g.counts f + chunkSubCounts F C ch i) f hnd hmem
    have hval : (mergeChunk F C g ch).counts f
        = g.counts f + chunkSubCounts F C ch (0 + j) := by
      rw [mergeChunk, if_neg hne]
      exact he
    have hcc : chunkSubCounts F C ch j = denseCounts F C ch.cams f := by
      simp only [chunkSubCounts]
      rw [hj]
      rfl
    rw [hval, Nat.zero_add, hcc]
  · have h0 : denseCounts F C ch.cams f = 0 := by
      rw [denseCounts, List.length_eq_zero, List.filter_eq_nil_iff]
      intro p hp hsome
      exact hmem (hsupp p hp f hsome)
    rw [h0, Nat.add_zero, mergeChunk]
    by_cases hemp : ch.faceIDs.isEmpty = true
    · rw [if_pos hemp]
    · rw [if_neg hemp]
      exact scatterFrom_not_mem F g.counts 0 ch.faceIDs _ f hmem

theorem nansumMerge_nan (old : ℚ) : nansumMerge old FVal.nan = old := by
  show old + 0 = old
  ring

theorem nansumMerge_val (old q : ℚ) : nansumMerge old (FVal.val q) = old + q := rfl

theorem mergeChunk_summed (F C : ℕ) (g : GlobalAccum F C) (ch : Chunk F C)
    (hnd : ch.faceIDs.Nodup)
    (hsupp : ∀ p ∈ ch.cams, ∀ f : Fin F, (p f).isSome → f ∈ ch.faceIDs)
    (f : Fin F) (c : Fin C) :
    (mergeChunk F C g ch).summed f c = g.summed f c + denseSummed F C ch.cams f c := by
  by_cases hmem : f ∈ ch.faceIDs
  · have hne : ¬ (ch.faceIDs.isEmpty = true) := by
      intro h
      exact List.ne_nil_of_mem hmem (List.isEmpty_iff.mp h)
    obtain ⟨j, hj, he⟩ :=
      scatterFrom_mem F g.summed 0 ch.faceIDs
        (fun i f => fun c => nansumMerge (g.summed f c) (chunkSubSummed F C ch i c))
        f hnd hmem
    have hval : (mergeChunk F C g ch).summed f c
        = nansumMerge (g.summed f c) (chunkSubSummed F C ch (0 + j) c) := by
      rw [mergeChunk, if_neg hne]
      exact congrFun he c
    rw [hval, Nat.zero_add]
    have hss : chunkSubSummed F C ch j c
        = if (ch.cams.filter (fun p => (p f).isSome)).length = 0 then FVal.nan
          else FVal.val (((ch.cams.filterMap (fun p => p f)).map (fun v => v c)).sum) := by
      simp only [chunkSubSummed]
      rw [hj]
    rw [hss]
    by_cases hcnt : (ch.cams.filter (fun p => (p f).isSome)).length = 0
    · rw [if_pos hcnt, nansumMerge_nan, denseSummed,
        filterMap_proj_eq_nil F C ch.cams f hcnt]
      simp
    · rw [if_neg hcnt, nansumMerge_val, denseSummed]
  · have h0 : denseSummed F C ch.cams f c = 0 := by
      have hnil : ch.cams.filterMap (fun p => p f) = [] := by
        rw [List.filterMap_eq_nil_iff]
        intro p hp
        cases hpf : p f with
        | none => rfl
        | some w =>
            exfalso
            exact hmem (hsupp p hp f (by rw [hpf]; rfl))
      rw [denseSummed, hnil]
      simp
    rw [h0, add_zero, mergeChunk]
    by_cases hemp : ch.faceIDs.isEmpty = true
    · rw [if_pos hemp]
    · rw [if_neg hemp]
      exact congrFun (scatterFrom_not_mem F g.summed 0 ch.faceIDs _ f hmem) c

theorem denseCounts_append (F C : ℕ) (l1 l2 : List (Proj F C)) (f : Fin F) :
    denseCounts F C (l1 ++ l2) f = denseCounts F C l1 f + denseCounts F C l2 f := by
  simp [denseCounts, List.filter_append]

theorem denseSummed_append (F C : ℕ) (l1 l2 : List (Proj F C)) (f : Fin F) (c : Fin C) :
    denseSummed F C (l1 ++ l2) f c = denseSummed F C l1 f c + denseSummed F C l2 f c := by
  simp [denseSummed, List.filterMap_append]

/-- All cameras of a chunk list in order: the camera set the chunks
partition. -/
def allCams (F C : ℕ) (chunks : List (Chunk F C)) : List (Proj F C) :=
  (chunks.map Chunk.cams).flatten

theorem allCams_cons (F C : ℕ) (ch : Chunk F C) (rest : List (Chunk F C)) :
    allCams F C (ch :: rest) = ch.cams ++ allCams F C rest := by
  simp [allCams]

theorem chunkedFold_accum (F C : ℕ) (chunks : List (Chunk F C)) (g : GlobalAccum F C)
    (hnd : ∀ ch ∈ chunks, ch.faceIDs.Nodup)
    (hsupp : ∀ ch ∈ chunks, ∀ p ∈ ch.cams, ∀ f : Fin F, (p f).isSome → f ∈ ch.faceIDs)
    (f : Fin F) :
    (chunks.foldl (mergeChunk F C) g).counts f
        = g.counts f + denseCounts F C (allCams F C chunks) f
    ∧ ∀ c, (chunks.foldl (mergeChunk F C) g).summed f c
        = g.summed f c + denseSummed F C (allCams F C chunks) f c := by
  induction chunks generalizing g with
  | nil => simp [allCams, denseCounts, denseSummed]
  | cons ch rest ih =>
    have hndch := hnd ch (List.mem_cons_self _ _)
    have hsch := hsupp ch (List.mem_cons_self _ _)
    have hndr : ∀ ch2 ∈ rest, ch2.faceIDs.Nodup :=
      fun ch2 h2 => hnd ch2 (List.mem_cons_of_mem _ h2)
    have hsr : ∀ ch2 ∈ rest, ∀ p ∈ ch2.cams, ∀ f : Fin F,
        (p f).isSome → f ∈ ch2.faceIDs :=
      fun ch2 h2 => hsupp ch2 (List.mem_cons_of_mem _ h2)
    obtain ⟨ihc, ihs⟩ := ih (mergeChunk F C g ch) hndr hsr
    constructor
    · rw [List.foldl_cons, ihc, mergeChunk_counts F C g ch hndch hsch f,
        allCams_cons, denseCounts_append]
      omega
    · intro c
      rw [List.foldl_cons, ihs c, mergeChunk_summed F C g ch hndch hsch f c,
        allCams_cons, denseSummed_append]
      ring

/-- C3: for every decomposition of the camera set into chunks such that every
face a chunk camera observes lies in that chunk's Face ID Map (the claim's
buffered-containment hypothesis) and every Face ID Map lists distinct parent
faces, the chunked aggregation — per-chunk accumulation followed by the
scatter-add of each chunk's summed projections and counts through the Face ID
Map — produces exactly the per-face summed projections and observation counts
of the unchunked accumulation over all cameras (exactly, hence in particular
up to floating-point rounding). -/
theorem C3_chunked_equals_unchunked (F C : ℕ) (chunks : List (Chunk F C))
    (hnd : ∀ ch ∈ chunks, ch.faceIDs.Nodup)
    (hsupp : ∀ ch ∈ chunks, ∀ p ∈ ch.cams, ∀ f : Fin F, (p f).isSome → f ∈ ch.faceIDs) :
    ∀ f : Fin F,
      (chunkedAccumulate F C chunks).counts f = denseCounts F C (allCams F C chunks) f
      ∧ ∀ c, (chunkedAccumulate F C chunks).summed f c
          = denseSummed F C (allCams F C chunks) f c := by
  intro f
  obtain ⟨hc, hs⟩ :=
    chunkedFold_accum F C chunks ⟨fun _ _ => 0, fun _ => 0⟩ hnd hsupp f
  constructor
  · rw [chunkedAccumulate, hc]
    exact Nat.zero_add _
  · intro c
    rw [chunkedAccumulate, hs c]
    exact zero_add _

/-- A camera of the C3 witness: it observes only face 0. -/
def p1W : Proj 2 1 := fun f => if f = 0 then some (fun _ => 3) else none

/-- A camera of the C3 witness: it observes both faces. -/
def p2W : Proj 2 1 := fun f => if f = 0 then some (fun _ => 1) else some (fun _ => 2)

/-- The chunk decomposition of the C3 witness: the first chunk covers face 0
with the first camera, the second covers both faces with the second camera. -/
def chunksW : List (Chunk 2 1) := [⟨[0], [p1W]⟩, ⟨[0, 1], [p2W]⟩]

/-- Witness for C3 on a concrete two-face, two-camera decomposition. -/
theorem C3_chunked_equals_unchunked_witness :
    ((chunkedAccumulate 2 1 chunksW).counts 0
        = denseCounts 2 1 (allCams 2 1 chunksW) 0
      ∧ (chunkedAccumulate 2 1 chunksW).summed 0 0
        = denseSummed 2 1 (allCams 2 1 chunksW) 0 0)
    ∧ ((chunkedAccumulate 2 1 chunksW).counts 1
        = denseCounts 2 1 (allCams 2 1 chunksW) 1
      ∧ (chunkedAccumulate 2 1 chunksW).summed 1 0
        = denseSummed 2 1 (allCams 2 1 chunksW) 1 0) :=
  ⟨⟨(C3_chunked_equals_unchunked 2 1 chunksW (by decide) (by decide) 0).1,
    (C3_chunked_equals_unchunked 2 1 chunksW (by decide) (by decide) 0).2 0⟩,
   ⟨(C3_chunked_equals_unchunked 2 1 chunksW (by decide) (by decide) 1).1,
    (C3_chunked_equals_unchunked 2 1 chunksW (by decide) (by decide) 1).2 0⟩⟩
